import Mathlib

/-!
Verification development for the alto mac-cleaner core
(`src-tauri/src/mcp/file_index.rs`, `src-tauri/src/mcp/context_store.rs`,
`src-tauri/src/lib.rs`, `src-tauri/src/helper_client.rs`,
`src-tauri/src/scanners/uninstaller.rs`, `src-tauri/src/scanners/junk.rs`,
`src-tauri/src/bin/alto_helper.rs`).

The Rust functions are embedded shallowly: pure string/path logic is
translated directly; filesystem effects (file sizes, `trash` removal,
path canonicalization, socket round-trips) are passed in as explicit
oracle parameters so that the control flow of the Rust code is preserved
while its environment stays abstract.  The `target_os = "macos"`
configuration of the code is the one embedded (the repository is a mac
cleaner; the windows branches are dead on the shipped target).
-/

namespace Alto

/-!
String primitives.  The embedding works on the character list underlying
a `String` (structural recursion, so every definition evaluates inside
the kernel).  Rust's `str::to_lowercase` is full-Unicode while
`Char.toLower` only lowers ASCII letters; every pattern, prefix and
filename the code compares against is ASCII, so the two agree on all
inputs the claims quantify over up to non-ASCII case folding, which no
pattern can match anyway.
-/

/-- Rust `str::to_lowercase` (ASCII fragment, see note above). -/
def strToLower (s : String) : String := ⟨s.data.map Char.toLower⟩

/-- Rust `str::starts_with`. -/
def strStartsWith (s pre : String) : Bool := pre.data.isPrefixOf s.data

/-- Rust `str::ends_with`. -/
def strEndsWith (s suf : String) : Bool := suf.data.isSuffixOf s.data

/-- Rust `str::trim` (ASCII whitespace fragment). -/
def strTrim (s : String) : String :=
  ⟨((s.data.dropWhile Char.isWhitespace).reverse.dropWhile Char.isWhitespace).reverse⟩

/-- Index (in characters) of the first occurrence of `pat` in `s`,
mirroring Rust `str::find` for valid UTF-8 (an ASCII pattern cannot
match in the middle of a multi-byte character). -/
def findSubIdx (pat : List Char) : List Char → Option Nat
  | [] => if pat.isEmpty then some 0 else none
  | c :: t =>
    if pat.isPrefixOf (c :: t) then some 0
    else (findSubIdx pat t).map (· + 1)

/-- Rust `str::contains` (substring containment). -/
def strContains (s pat : String) : Bool :=
  (findSubIdx pat.toList s.toList).isSome

/-- `file_index.rs` — `FileCategory`. -/
inductive FileCategory where
  | Cache
  | Log
  | Temp
  | UserData
  | SystemCritical
  | AppSupport
  | Unknown
deriving DecidableEq, Repr

/-- Rust `Debug` rendering of a `FileCategory` (used in shredder error
messages). -/
def FileCategory.debugStr : FileCategory → String
  | .Cache => "Cache"
  | .Log => "Log"
  | .Temp => "Temp"
  | .UserData => "UserData"
  | .SystemCritical => "SystemCritical"
  | .AppSupport => "AppSupport"
  | .Unknown => "Unknown"

/-- `file_index.rs` — `IndexedFile`.  `size_bytes` is a `u64` in Rust;
it is produced by `std::fs::metadata(..).len()` and never arithmetically
combined inside the classifier, so `Nat` is a faithful carrier here. -/
structure IndexedFile where
  path : String
  size_bytes : Nat
  category : FileCategory
  app_owner : Option String
  is_safe_to_delete : Bool
  reason : String
deriving DecidableEq, Repr

/-- `file_index.rs` lines 31–35 (`target_os = "macos"`). -/
def system_critical_prefixes : List String :=
  ["/system", "/usr", "/bin", "/sbin", "/private/var/db",
   "/library/apple", "/library/coreservices"]

/-- `file_index.rs` lines 56–59. -/
def user_data_patterns : List String :=
  ["documents", "desktop", "downloads", "pictures",
   "movies", "music", "dropbox", "icloud", "onedrive", "google drive"]

/-- `file_index.rs` lines 157–159 — patterns of `extract_app_owner`. -/
def owner_patterns : List String :=
  ["application support", "caches", "logs", "appdata\\local", "appdata\\roaming"]

/-- `file_index.rs` `extract_app_owner` (lines 153–171).  The caller
passes the already-lowercased path.  Rust's
`rest.trim_start_matches(sep).split(sep).next()` is the first
separator-free component of `rest` after stripping leading separators;
a failed length check falls through to the next pattern. -/
def extract_app_owner (path : String) : Option String :=
  let sep : Char := if strContains path "\\" then '\\' else '/'
  let rec go : List String → Option String
    | [] => none
    | pat :: restPats =>
      match findSubIdx pat.toList path.toList with
      | some idx =>
        let rest := path.toList.drop (idx + pat.length)
        let component := (rest.dropWhile (· == sep)).takeWhile (· != sep)
        if !component.isEmpty && component.length > 3 then
          some component.asString
        else go restPats
      | none => go restPats
  go owner_patterns

/-- `file_index.rs` `index_file` (lines 26–142), `target_os = "macos"`
branches.  The only filesystem effect, `get_size(p)` =
`std::fs::metadata(p).map(|m| m.len()).unwrap_or(0)`, is abstracted as
the oracle `sz` applied to the original path string.  The user-data
loop returns as soon as any pattern matches and the path contains
neither "cache" nor "temp"; since that guard does not depend on the
pattern, the loop is equivalent to the single conditional below. -/
def index_file (sz : String → Nat) (path : String) : IndexedFile :=
  let path_lower := strToLower path
  if system_critical_prefixes.any (fun pre => strStartsWith path_lower pre) then
    { path := path, size_bytes := sz path, category := .SystemCritical,
      app_owner := none, is_safe_to_delete := false,
      reason := "System critical path: protected by the operating system." }
  else if user_data_patterns.any (fun pat => strContains path_lower pat)
      && !(strContains path_lower "cache") && !(strContains path_lower "temp") then
    { path := path, size_bytes := sz path, category := .UserData,
      app_owner := none, is_safe_to_delete := false,
      reason := "User data directory â€” Alto will never touch this." }
  else if strContains path_lower "cache" || strContains path_lower "localstorage" then
    let app_owner := extract_app_owner path_lower
    { path := path, size_bytes := sz path, category := .Cache,
      app_owner := app_owner, is_safe_to_delete := true,
      reason := "Application cache" ++
        (match app_owner with | some a => " from " ++ a | none => "") ++
        ". Safe to clear." }
  else if strContains path_lower "logs" || strEndsWith path_lower ".log" then
    let app_owner := extract_app_owner path_lower
    { path := path, size_bytes := sz path, category := .Log,
      app_owner := app_owner, is_safe_to_delete := true,
      reason := "Log file" ++
        (match app_owner with | some a => " from " ++ a | none => "") ++
        ". Safe to delete." }
  else if strStartsWith path_lower "/tmp/" || strContains path_lower "/var/folders/" then
    { path := path, size_bytes := sz path, category := .Temp,
      app_owner := none, is_safe_to_delete := true,
      reason := "Temporary file. Safe to delete." }
  else if strContains path_lower "application support" then
    let app_owner := extract_app_owner path_lower
    { path := path, size_bytes := sz path, category := .AppSupport,
      app_owner := app_owner, is_safe_to_delete := false,
      reason := "App data" ++
        (match app_owner with | some a => " for " ++ a | none => "") ++
        ". Deleting may break the app." }
  else
    { path := path, size_bytes := sz path, category := .Unknown,
      app_owner := none, is_safe_to_delete := false,
      reason := "Unknown file type. Manual review recommended." }

/-- `file_index.rs` `index_files` (lines 145–147). -/
def index_files (sz : String → Nat) (paths : List String) : List IndexedFile :=
  paths.map (index_file sz)

/-- A size oracle used for concrete witnesses: every path has size 0
(the behaviour of `get_size` on a non-existent file). -/
def sz0 : String → Nat := fun _ => 0

deriving instance DecidableEq for Except

/-- Rust `str::eq_ignore_ascii_case`: equality after ASCII lowercasing
of both sides (`Char.toLower` lowers exactly the ASCII letters). -/
def eqIgnoreAsciiCase (a b : String) : Bool :=
  strToLower a == strToLower b

/-- `junk.rs` lines 123–135 — the fixed filename whitelist of
`is_whitelisted`. -/
def junk_whitelist : List String :=
  [".DS_Store", "localized", "Icon\r", ".lock", "settings.json", "config.json",
   "User Data", "bookmarks", "Login Data", "desktop.ini", "ntuser.dat"]

/-- `junk.rs` `is_whitelisted` (lines 121–137). -/
def is_whitelisted (file_name : String) : Bool :=
  junk_whitelist.contains file_name

/-- `junk.rs` `scan_junk`, lines 197–203: the unconditional per-filename
filter applied to every file of every template tree before it may be
listed.  A file is listed only when it is neither whitelisted nor named
`Cookies`/`History` (ASCII-case-insensitively); otherwise the loop
`continue`s past it regardless of the directory it sits in. -/
def junk_name_allowed (name : String) : Bool :=
  !(is_whitelisted name) &&
  !(eqIgnoreAsciiCase name "Cookies" || eqIgnoreAsciiCase name "History")

/-! Audit store (`context_store.rs`).  `save`/`load` are persistence
I/O; the embedding threads the in-memory store value explicitly, and the
`chrono::Local::now()` timestamp is an oracle argument. -/

/-- `context_store.rs` `DeletionRecord` (lines 4–9). -/
structure DeletionRecord where
  timestamp : String
  paths_deleted : List String
  total_bytes_freed : Nat
deriving DecidableEq, Repr

/-- `context_store.rs` `SystemEvent` (lines 12–18). -/
structure SystemEvent where
  timestamp : String
  event_type : String
  description : String
  path : String
deriving DecidableEq, Repr

/-- `context_store.rs` `UserPrefs` (lines 20–24). -/
structure UserPrefs where
  always_skip_patterns : List String
  auto_confirm_caches : Bool
deriving DecidableEq, Repr

/-- `context_store.rs` `ContextStore` (lines 26–32). -/
structure ContextStore where
  last_scan_timestamp : Option String
  deletion_history : List DeletionRecord
  system_events : List SystemEvent
  user_preferences : UserPrefs
deriving DecidableEq, Repr

/-- `ContextStore::default()`. -/
def emptyStore : ContextStore :=
  { last_scan_timestamp := none, deletion_history := [],
    system_events := [], user_preferences := ⟨[], false⟩ }

/-- `context_store.rs` `record_deletion` (lines 59–70): push the new
record, then `drain(0..len-100)` — i.e. drop the oldest `len - 100`
records — whenever the history exceeds 100 entries. -/
def record_deletion (store : ContextStore) (now : String) (paths : List String)
    (bytes_freed : Nat) : ContextStore :=
  let h := store.deletion_history ++
    [{ timestamp := now, paths_deleted := paths, total_bytes_freed := bytes_freed }]
  let h := if h.length > 100 then h.drop (h.length - 100) else h
  { store with deletion_history := h }

/-- A sequence of `record_deletion` calls, one per record. -/
def record_many (store : ContextStore) (recs : List DeletionRecord) : ContextStore :=
  recs.foldl
    (fun s r => record_deletion s r.timestamp r.paths_deleted r.total_bytes_freed) store

/-- `lib.rs` confirm result object `{removed, bytes_freed, blocked,
errors}` (the all-blocked branch of the code emits no `bytes_freed`
key; the embedding fixes it at 0 there). -/
structure ConfirmResult where
  removed : Nat
  bytes_freed : Nat
  blocked : List String
  errors : List String
deriving DecidableEq, Repr

/-- `lib.rs` `confirm_delete` (lines 306–343).  Oracles: `sz` for file
sizes, `deleteAll` for the single `trash::delete_all(&path_refs)` call
on the batch of safe paths, `now` for the audit timestamp.  Returns the
command result (`Ok(json)` / `Err(msg)`) paired with the context store
as left on disk — `ContextStore::load` and `record_deletion` run only in
the success branch, so in every other branch the store is unchanged. -/
def confirm_delete (sz : String → Nat) (deleteAll : List String → Except String Unit)
    (now : String) (store : ContextStore) (paths : List String) :
    Except String ConfirmResult × ContextStore :=
  let indexed := index_files sz paths
  let safe_paths := (indexed.filter (fun f => f.is_safe_to_delete)).map (fun f => f.path)
  let blocked := (indexed.filter (fun f => !f.is_safe_to_delete)).map (fun f => f.path)
  if safe_paths.isEmpty then
    (.ok { removed := 0, bytes_freed := 0, blocked := blocked,
           errors := ["No safe files to delete after safety check."] }, store)
  else
    let total_bytes :=
      ((indexed.filter (fun f => f.is_safe_to_delete)).map (fun f => f.size_bytes)).sum
    match deleteAll safe_paths with
    | .ok _ =>
      let store' := record_deletion store now safe_paths total_bytes
      (.ok { removed := safe_paths.length, bytes_freed := total_bytes, blocked := blocked,
             errors := [] }, store')
    | .error e => (.error ("Delete failed: " ++ e), store)

/-- `lib.rs` `shred_path_command` (lines 411–433).  `dirs::home_dir()`
and `canonicalize_and_validate_path` (lines 12–24) are the
filesystem-dependent prefix of the function and are abstracted as the
oracle `canonicalize` applied to the trimmed input; its `.error` carries
the validation message ("Path does not exist", an io error string, or
"Path is outside allowed directories (e.g. home)."), its `.ok` the
canonical path.  An `.ok` result of the command is the path handed on to
`shredder::shred_path`; an `.error` result means the command refused
before any overwrite or removal happened. -/
def shred_path_command (sz : String → Nat) (canonicalize : String → Except String String)
    (path : String) : Except String String :=
  match canonicalize (strTrim path) with
  | .error e => .error e
  | .ok canonical =>
    let path_str := canonical
    let indexed := index_file sz path_str
    if !indexed.is_safe_to_delete then
      .error ("Shredder blocked: " ++ indexed.reason ++
        ". Alto will not shred system or user data.")
    else if indexed.category == .SystemCritical || indexed.category == .UserData then
      .error ("Shredder blocked: " ++ indexed.reason ++
        " (category: " ++ indexed.category.debugStr ++ ")")
    else
      .ok path_str

/-! Privilege-escalation client (`helper_client.rs`,
`scanners/uninstaller.rs`) and privileged helper daemon
(`bin/alto_helper.rs`). -/

/-- `helper_client.rs` `Command` (lines 9–15), identical to
`alto_helper.rs` lines 10–15. -/
inductive Command where
  | Ping
  | DeletePath (path : String)
  | UninstallApp (bundle_path : String)
deriving DecidableEq, Repr

/-- `helper_client.rs` `Response` (lines 17–21), identical to
`alto_helper.rs` lines 17–21. -/
structure Response where
  success : Bool
  message : String
deriving DecidableEq, Repr

/-- What the daemon reads off one accepted connection: an empty read
(`n == 0`), bytes that fail to decode as a `Command`, or a decoded
`Command`. -/
inductive ConnInput where
  | empty
  | malformed
  | decoded (c : Command)
deriving DecidableEq, Repr

/-- Filesystem oracle for the daemon: the outcomes of
`fs::remove_dir_all` and `fs::remove_file` at each path (`.error`
carries `e.to_string()`). -/
structure FsOracle where
  remove_dir_all : String → Except String Unit
  remove_file : String → Except String Unit

/-- `alto_helper.rs` `handle_connection` (lines 54–85) as a function
from one connection's input to the `Response` written back; `none` when
the connection closes without a response (an empty read returns `Ok(())`
early, and a decode failure propagates via `?` so the spawned task only
logs it).  `DeletePath` is `remove_dir_all(..).or_else(|_|
remove_file(..))`; `UninstallApp` is `remove_dir_all` alone. -/
def handle_connection (fs : FsOracle) : ConnInput → Option Response
  | .empty => none
  | .malformed => none
  | .decoded .Ping => some { success := true, message := "Pong" }
  | .decoded (.DeletePath path) =>
    match fs.remove_dir_all path with
    | .ok _ => some { success := true, message := "Deleted " ++ path }
    | .error _ =>
      match fs.remove_file path with
      | .ok _ => some { success := true, message := "Deleted " ++ path }
      | .error e => some { success := false, message := e }
  | .decoded (.UninstallApp bundle_path) =>
    match fs.remove_dir_all bundle_path with
    | .ok _ => some { success := true, message := "Uninstalled " ++ bundle_path }
    | .error e => some { success := false, message := e }

/-- `alto_helper.rs` `main` accept loop (lines 40–52): every accepted
connection is handed to an independent spawned task running
`handle_connection`; a task error is logged and the loop continues
unconditionally (it exits only on the pre-loop bind failure).  The
daemon's visible behaviour over a finite sequence of connections is
therefore the per-connection map of `handle_connection`. -/
def daemon_run (fs : FsOracle) (conns : List ConnInput) : List (Option Response) :=
  conns.map (handle_connection fs)

/-- Externally visible actions of the privilege-escalation client, in
program order: IPC sends, the OS-native elevated install prompt
(`osascript … with administrator privileges`), and reversible
`trash::delete` attempts. -/
inductive HelperAction where
  | sendPing
  | sendDeletePath (path : String)
  | sendUninstallApp (bundle_path : String)
  | installPrompt
  | trashDelete (path : String)
deriving DecidableEq, Repr

/-- `helper_client.rs` `ensure_helper_installed` (lines 59–120).
Oracles: `ping1` = the initial `send_command(Ping)` (`none` = transport
error, `some res` = decoded response); `helperExists`/`scriptExists` =
the two file-existence probes; `installResult` = the elevated install
(`none` = `osascript` spawn failure, `some b` = exit-status success
flag); `ping2ok` = whether the re-`Ping` after installation returns
`Ok`.  Returns the boolean result paired with the trace of
`HelperAction`s performed. -/
def ensure_helper_installed (ping1 : Option Response) (helperExists scriptExists : Bool)
    (installResult : Option Bool) (ping2ok : Bool) : Bool × List HelperAction :=
  let t := [HelperAction.sendPing]
  let earlyOk :=
    match ping1 with
    | some res => res.success
    | none => false
  if earlyOk then (true, t)
  else if !helperExists then (false, t)
  else if !scriptExists then (false, t)
  else
    match installResult with
    | some true => (ping2ok, t ++ [HelperAction.installPrompt, HelperAction.sendPing])
    | some false => (false, t ++ [HelperAction.installPrompt])
    | none => (false, t ++ [HelperAction.installPrompt])

/-- `scanners/uninstaller.rs` `uninstall_app` (lines 250–289, macOS).
Oracles: `trashOk` = per-path success of `trash::delete`; `helper` = the
result of `helper_client::send_command` (`.error` = transport/decode
failure string); `leftovers` = the flattened residue list computed by
`get_bundle_id` + `scan_leftovers` (pure filesystem reads preceding any
removal).  Returns the `Result` paired with the trace of actions: trash
the bundle, on failure send `UninstallApp` (aborting on helper error or
unsuccessful response), then for each leftover trash it and on failure
send `DeletePath`, ignoring the helper's answer. -/
def uninstall_app (trashOk : String → Bool) (helper : Command → Except String Response)
    (leftovers : List String) (path : String) :
    Except String Unit × List HelperAction :=
  let t := [HelperAction.trashDelete path]
  let step1 : Except String Unit × List HelperAction :=
    if trashOk path then (.ok (), t)
    else
      let t := t ++ [HelperAction.sendUninstallApp path]
      match helper (.UninstallApp path) with
      | .error e => (.error ("Helper failed: " ++ e), t)
      | .ok res =>
        if !res.success then (.error ("Uninstallation failed: " ++ res.message), t)
        else (.ok (), t)
  match step1 with
  | (.error e, t) => (.error e, t)
  | (.ok _, t) =>
    let t := leftovers.foldl (fun acc l =>
      let acc := acc ++ [HelperAction.trashDelete l]
      if trashOk l then acc
      else acc ++ [HelperAction.sendDeletePath l]) t
    (.ok (), t)

/-- The classified path is returned verbatim. -/
theorem index_file_path (sz : String → Nat) (p : String) :
    (index_file sz p).path = p := by
  unfold index_file
  simp only [apply_ite IndexedFile.path, ite_self]

/-- The safety flag is a function of the category. -/
theorem index_file_safe_iff (sz : String → Nat) (p : String) :
    (index_file sz p).is_safe_to_delete = true ↔
      ((index_file sz p).category = .Cache ∨ (index_file sz p).category = .Log ∨
       (index_file sz p).category = .Temp) := by
  unfold index_file
  simp only [apply_ite IndexedFile.is_safe_to_delete, apply_ite IndexedFile.category]
  repeat' split
  all_goals simp

/-- While the history stays within the cap, `record_deletion` is a plain
append. -/
theorem record_many_append (recs : List DeletionRecord) :
    ∀ (store : ContextStore), store.deletion_history.length + recs.length ≤ 100 →
      (record_many store recs).deletion_history = store.deletion_history ++ recs := by
  induction recs with
  | nil => intro store _; simp [record_many]
  | cons r rs ih =>
    intro store hlen
    have hstep : (record_deletion store r.timestamp r.paths_deleted r.total_bytes_freed)
        = { store with deletion_history := store.deletion_history ++ [r] } := by
      simp only [record_deletion]
      rw [if_neg (by
        simp only [List.length_append, List.length_cons, List.length_nil]
        simp only [List.length_cons] at hlen
        omega)]
    have : record_many store (r :: rs)
        = record_many { store with deletion_history := store.deletion_history ++ [r] } rs := by
      simp only [record_many, List.foldl_cons, hstep]
    rw [this, ih]
    · simp
    · simp only [List.length_append, List.length_singleton]
      simp only [List.length_cons] at hlen
      omega

/-- C1: for every path (and every filesystem state, i.e. size oracle),
`index_file` returns `is_safe_to_delete = true` exactly when the
returned category is `Cache`, `Log` or `Temp`, and `false` for
`SystemCritical`, `UserData`, `AppSupport` and `Unknown`; moreover the
safety flag is a function of the category alone — any two invocations
(on any paths, under any size oracles) that return the same category
return the same safety flag. -/
theorem claim_C1_safety_determined_by_category :
    (∀ (sz : String → Nat) (p : String),
      (index_file sz p).is_safe_to_delete = true ↔
        ((index_file sz p).category = .Cache ∨ (index_file sz p).category = .Log ∨
         (index_file sz p).category = .Temp)) ∧
    (∀ (sz₁ sz₂ : String → Nat) (p₁ p₂ : String),
      (index_file sz₁ p₁).category = (index_file sz₂ p₂).category →
      (index_file sz₁ p₁).is_safe_to_delete = (index_file sz₂ p₂).is_safe_to_delete) := by
  refine ⟨index_file_safe_iff, fun sz₁ sz₂ p₁ p₂ h => ?_⟩
  have h₁ := index_file_safe_iff sz₁ p₁
  have h₂ := index_file_safe_iff sz₂ p₂
  rw [h] at h₁
  exact Bool.coe_iff_coe.mp (h₁.trans h₂.symm)

/-- Witness for C1 at concrete inputs: two different temp paths under
two different size oracles carry the same category, hence the same
safety flag, and the iff holds at a concrete cache path. -/
theorem claim_C1_safety_determined_by_category_witness :
    (index_file sz0 "/tmp/a").is_safe_to_delete =
      (index_file (fun _ => 7) "/tmp/b").is_safe_to_delete ∧
    ((index_file sz0 "Library/Caches/x").is_safe_to_delete = true ↔
      ((index_file sz0 "Library/Caches/x").category = .Cache ∨
       (index_file sz0 "Library/Caches/x").category = .Log ∨
       (index_file sz0 "Library/Caches/x").category = .Temp)) :=
  ⟨claim_C1_safety_determined_by_category.2 sz0 (fun _ => 7) "/tmp/a" "/tmp/b" (by decide),
   claim_C1_safety_determined_by_category.1 sz0 "Library/Caches/x"⟩

/-- C2 counterexample: a browser cookie store inside a cache tree.  The
classifier `index_file` contains no cookie/history exclusion at all: a
path whose file name is `Cookies` but which contains a "cache" segment
is classified `Cache` with `is_safe_to_delete = true`, contradicting the
claim that the classifier never returns `is_safe_to_delete = true` for
such a file. -/
theorem claim_C2_counterexample :
    (index_file sz0 "/Users/u/Library/Caches/Google/Chrome/Default/Cookies").is_safe_to_delete
        = true ∧
    (index_file sz0 "/Users/u/Library/Caches/Google/Chrome/Default/Cookies").category
        = FileCategory.Cache := by
  decide

/-- C2 (amended): the browser/session-critical exclusion is enforced not
by the classifier but by the junk scanner's per-file filter: `scan_junk`
skips (never lists) any file whose name equals `Cookies` or `History`
ASCII-case-insensitively, before any other use of the file, regardless
of which directory tree it was found in; the classifier itself returns
`is_safe_to_delete = true` for such files when they match a cache
pattern. -/
theorem claim_C2_amended_scan_junk_skips_cookie_history (name : String)
    (h : eqIgnoreAsciiCase name "Cookies" = true ∨ eqIgnoreAsciiCase name "History" = true) :
    junk_name_allowed name = false := by
  unfold junk_name_allowed
  rcases h with h | h <;> simp [h]

/-- Witness for the amended C2: the scanner filter rejects the concrete
filenames `Cookies` and `history`. -/
theorem claim_C2_amended_scan_junk_skips_cookie_history_witness :
    junk_name_allowed "Cookies" = false ∧ junk_name_allowed "history" = false :=
  ⟨claim_C2_amended_scan_junk_skips_cookie_history "Cookies" (Or.inl (by decide)),
   claim_C2_amended_scan_junk_skips_cookie_history "history" (Or.inr (by decide))⟩

/-- C5: whenever the lowercased path starts with one of the recognized
system-critical prefixes, `index_file` returns `SystemCritical` and
`is_safe_to_delete = false` — this branch is the first check, so it wins
even when the path also contains "cache". -/
theorem claim_C5_system_critical_prefix_wins (sz : String → Nat) (p : String)
    (h : system_critical_prefixes.any (fun pre => strStartsWith (strToLower p) pre) = true) :
    (index_file sz p).category = FileCategory.SystemCritical ∧
    (index_file sz p).is_safe_to_delete = false := by
  simp [index_file, h]

/-- Witness for C5: a system path containing "caches" is still blocked
as `SystemCritical`. -/
theorem claim_C5_system_critical_prefix_wins_witness :
    system_critical_prefixes.any
        (fun pre => strStartsWith (strToLower "/System/Library/Caches/com.apple.x") pre) = true ∧
    (index_file sz0 "/System/Library/Caches/com.apple.x").category
        = FileCategory.SystemCritical ∧
    (index_file sz0 "/System/Library/Caches/com.apple.x").is_safe_to_delete = false :=
  ⟨by decide, claim_C5_system_critical_prefix_wins sz0 "/System/Library/Caches/com.apple.x"
      (by decide)⟩

/-- C10: the classifier is deterministic in everything but `size_bytes`:
for one and the same path, two invocations under arbitrary (different)
filesystem states — modelled by the two size oracles, which are the only
channel through which `index_file` reads the filesystem — agree on
`category`, `is_safe_to_delete`, `app_owner`, `reason` and the echoed
`path`; only `size_bytes` can differ. -/
theorem claim_C10_classifier_deterministic_except_size
    (sz₁ sz₂ : String → Nat) (p : String) :
    (index_file sz₁ p).category = (index_file sz₂ p).category ∧
    (index_file sz₁ p).is_safe_to_delete = (index_file sz₂ p).is_safe_to_delete ∧
    (index_file sz₁ p).app_owner = (index_file sz₂ p).app_owner ∧
    (index_file sz₁ p).reason = (index_file sz₂ p).reason ∧
    (index_file sz₁ p).path = (index_file sz₂ p).path ∧
    (index_file sz₁ p).size_bytes = sz₁ p := by
  unfold index_file
  simp only [apply_ite IndexedFile.category, apply_ite IndexedFile.is_safe_to_delete,
    apply_ite IndexedFile.app_owner, apply_ite IndexedFile.reason,
    apply_ite IndexedFile.path, apply_ite IndexedFile.size_bytes, ite_self]
  exact ⟨trivial, trivial, trivial, trivial, trivial, trivial⟩

/-- C7: the deletion history is a ring buffer capped at 100:
`record_deletion` always leaves at most 100 records, and after 101
sequential deletions starting from the default (empty) store the history
holds exactly the last 100 records — the oldest one has been evicted. -/
theorem claim_C7_history_ring_buffer :
    (∀ (store : ContextStore) (now : String) (paths : List String) (bytes : Nat),
      (record_deletion store now paths bytes).deletion_history.length ≤ 100) ∧
    (∀ (recs : List DeletionRecord) (z : DeletionRecord), recs.length = 100 →
      (record_many emptyStore (recs ++ [z])).deletion_history = (recs ++ [z]).drop 1 ∧
      (record_many emptyStore (recs ++ [z])).deletion_history.length = 100) := by
  constructor
  · intro store now paths bytes
    simp only [record_deletion]
    split
    · rename_i h
      simp only [List.length_drop]
      omega
    · rename_i h
      simp only [List.length_append, List.length_cons, List.length_nil] at h ⊢
      omega
  · intro recs z hlen
    have hfill : (record_many emptyStore recs).deletion_history = recs := by
      have h := record_many_append recs emptyStore (by simp [emptyStore, hlen])
      simpa [emptyStore] using h
    have hsplit : record_many emptyStore (recs ++ [z])
        = record_deletion (record_many emptyStore recs)
            z.timestamp z.paths_deleted z.total_bytes_freed := by
      simp [record_many, List.foldl_append]
    rw [hsplit]
    simp only [record_deletion, hfill]
    rw [if_pos (by simp [hlen])]
    refine ⟨by simp [hlen], ?_⟩
    simp [List.length_drop, hlen]

/-- Witness for C7: the cap holds after one call, and a concrete run of
101 deletions keeps exactly the last 100 records. -/
theorem claim_C7_history_ring_buffer_witness :
    (record_deletion emptyStore "t" [] 0).deletion_history.length ≤ 100 ∧
    (record_many emptyStore
        (List.replicate 100 ⟨"t", [], 0⟩ ++ [⟨"z", ["/tmp/x.log"], 5⟩])).deletion_history
      = (List.replicate 100 (⟨"t", [], 0⟩ : DeletionRecord)
          ++ [(⟨"z", ["/tmp/x.log"], 5⟩ : DeletionRecord)]).drop 1 :=
  ⟨claim_C7_history_ring_buffer.1 emptyStore "t" [] 0,
   (claim_C7_history_ring_buffer.2 (List.replicate 100 ⟨"t", [], 0⟩)
      ⟨"z", ["/tmp/x.log"], 5⟩ (by simp)).1⟩

/-- C8: when every path of the batch is classified unsafe,
`confirm_delete` returns `Ok` (not an error) with `removed = 0`, the
full input list as `blocked`, a non-empty `errors` entry, and the
context store untouched — no `DeletionRecord` is appended. -/
theorem claim_C8_all_blocked_zero_effect (sz : String → Nat)
    (deleteAll : List String → Except String Unit) (now : String)
    (store : ContextStore) (paths : List String)
    (h : ∀ p ∈ paths, (index_file sz p).is_safe_to_delete = false) :
    confirm_delete sz deleteAll now store paths =
      (.ok { removed := 0, bytes_freed := 0, blocked := paths,
             errors := ["No safe files to delete after safety check."] }, store) := by
  have hsafe : (index_files sz paths).filter (fun f => f.is_safe_to_delete) = [] := by
    rw [List.filter_eq_nil_iff]
    intro f hf
    obtain ⟨p, hp, rfl⟩ := List.mem_map.mp hf
    simp [h p hp]
  have hblocked : (index_files sz paths).filter (fun f => !f.is_safe_to_delete)
      = index_files sz paths := by
    rw [List.filter_eq_self]
    intro f hf
    obtain ⟨p, hp, rfl⟩ := List.mem_map.mp hf
    simp [h p hp]
  have hpaths : (index_files sz paths).map (fun f => f.path) = paths := by
    simp only [index_files, List.map_map]
    have hid : ∀ p ∈ paths, ((fun f => f.path) ∘ index_file sz) p = id p := by
      intro p _
      simp [Function.comp, index_file_path]
    rw [List.map_congr_left hid, List.map_id]
  simp only [confirm_delete, hsafe, hblocked, hpaths, List.map_nil, List.isEmpty_nil,
    if_true]

/-- Witness for C8 at a concrete all-unsafe batch (a user-data path). -/
theorem claim_C8_all_blocked_zero_effect_witness :
    confirm_delete sz0 (fun _ => .ok ()) "t" emptyStore ["/Users/u/Documents/report.txt"]
      = (.ok { removed := 0, bytes_freed := 0, blocked := ["/Users/u/Documents/report.txt"],
               errors := ["No safe files to delete after safety check."] }, emptyStore) :=
  claim_C8_all_blocked_zero_effect sz0 (fun _ => .ok ()) "t" emptyStore
    ["/Users/u/Documents/report.txt"] (by decide)

/-- C3 counterexample: a batch with one removable safe path
(`/tmp/good.log`) and one safe path whose removal fails
(`/tmp/bad.log`, the `trash::delete_all` oracle errors on any batch
containing it).  The claim demands that the failing path be recorded in
`errors`/`blocked`, the remaining safe path still be removed, and a
`DeletionRecord` still be appended; instead `confirm_delete` aborts the
whole call with `Err("Delete failed: …")` and leaves the store
unchanged (no record is appended). -/
theorem claim_C3_counterexample :
    confirm_delete sz0
        (fun ps => if ps.contains "/tmp/bad.log"
          then .error "Operation not permitted" else .ok ())
        "t" emptyStore ["/tmp/good.log", "/tmp/bad.log"]
      = (.error "Delete failed: Operation not permitted", emptyStore) := by
  decide

/-- C3 (amended): removal is a single batch commit, not per-path
tolerant: whenever the one `trash::delete_all` call over the batch of
safe paths fails, the whole confirm call returns
`Err("Delete failed: …")`, no result object (and in particular no
`errors`/`blocked` accounting of the failure) is produced, and the
context store is returned unchanged — no `DeletionRecord` is appended
for the paths that could have been removed. -/
theorem claim_C3_amended_batch_abort (sz : String → Nat)
    (deleteAll : List String → Except String Unit) (now : String)
    (store : ContextStore) (paths : List String) (e : String)
    (hne : ((index_files sz paths).filter (fun f => f.is_safe_to_delete)).map
        (fun f => f.path) ≠ [])
    (hfail : deleteAll (((index_files sz paths).filter (fun f => f.is_safe_to_delete)).map
        (fun f => f.path)) = .error e) :
    confirm_delete sz deleteAll now store paths
      = (.error ("Delete failed: " ++ e), store) := by
  simp only [confirm_delete]
  rw [if_neg (by simpa using hne), hfail]

/-- Witness for the amended C3: a concrete one-element safe batch whose
removal fails aborts the call and leaves the store unchanged. -/
theorem claim_C3_amended_batch_abort_witness :
    confirm_delete sz0
        (fun ps => if ps.contains "/tmp/bad2.log"
          then .error "Permission denied (os error 13)" else .ok ())
        "t" emptyStore ["/tmp/bad2.log"]
      = (.error "Delete failed: Permission denied (os error 13)", emptyStore) :=
  claim_C3_amended_batch_abort sz0
    (fun ps => if ps.contains "/tmp/bad2.log"
      then .error "Permission denied (os error 13)" else .ok ())
    "t" emptyStore ["/tmp/bad2.log"] "Permission denied (os error 13)"
    (by decide) (by decide)

/-- C6: `shred_path_command` re-runs `index_file` on the canonicalized
path and refuses — returns an error, never reaching
`shredder::shred_path` — whenever that fresh classification is unsafe or
its category is `SystemCritical` or `UserData`, regardless of what the
caller believes about the path. -/
theorem claim_C6_shredder_refuses_unsafe (sz : String → Nat)
    (canonicalize : String → Except String String) (path canonical : String)
    (hcanon : canonicalize (strTrim path) = .ok canonical)
    (hbad : (index_file sz canonical).is_safe_to_delete = false ∨
            (index_file sz canonical).category = .SystemCritical ∨
            (index_file sz canonical).category = .UserData) :
    (shred_path_command sz canonicalize path).isOk = false := by
  unfold shred_path_command
  rw [hcanon]
  cases hs : (index_file sz canonical).is_safe_to_delete with
  | false => simp [hs, Except.isOk, Except.toBool]
  | true =>
    rcases hbad with h | h | h
    · rw [hs] at h; exact Bool.noConfusion h
    · simp [hs, h, Except.isOk, Except.toBool]
    · simp [hs, h, Except.isOk, Except.toBool]

/-- Witness for C6: shredding a system path is refused. -/
theorem claim_C6_shredder_refuses_unsafe_witness :
    (shred_path_command sz0 (fun s => .ok s) "/System/Library/Frameworks/x").isOk = false :=
  claim_C6_shredder_refuses_unsafe sz0 (fun s => .ok s) "/System/Library/Frameworks/x"
    (strTrim "/System/Library/Frameworks/x") rfl (Or.inr (Or.inl (by decide)))

/-- C9: the daemon isolates failures per connection: `DeletePath` on a
path where both removals fail yields `{success: false, message: <the
io error>}` on that connection; the response at any position of a run
depends only on that connection's own input; and after any finite
sequence of connections (including malformed and failing ones) a
subsequent `Ping` on a new connection is answered
`{success: true, message: "Pong"}`. -/
theorem claim_C9_daemon_per_connection_isolation :
    (∀ (fs : FsOracle) (q ed ef : String),
      fs.remove_dir_all q = .error ed → fs.remove_file q = .error ef →
      handle_connection fs (.decoded (.DeletePath q))
        = some { success := false, message := ef }) ∧
    (∀ (fs : FsOracle) (conns : List ConnInput) (i : Nat),
      (daemon_run fs conns)[i]? = conns[i]?.map (handle_connection fs)) ∧
    (∀ (fs : FsOracle) (conns : List ConnInput),
      daemon_run fs (conns ++ [.decoded .Ping])
        = daemon_run fs conns ++ [some { success := true, message := "Pong" }]) := by
  refine ⟨?_, ?_, ?_⟩
  · intro fs q ed ef hd hf
    simp [handle_connection, hd, hf]
  · intro fs conns i
    simp [daemon_run, List.getElem?_map]
  · intro fs conns
    simp [daemon_run, handle_connection]

/-- Witness for C9: a nonexistent-path delete answers a failure
response, and a Ping following a malformed and a delete connection is
still answered "Pong". -/
theorem claim_C9_daemon_per_connection_isolation_witness :
    handle_connection
        ⟨fun _ => .error "No such file or directory (os error 2)",
         fun _ => .error "No such file or directory (os error 2)"⟩
        (.decoded (.DeletePath "/nonexistent"))
      = some { success := false, message := "No such file or directory (os error 2)" } ∧
    daemon_run ⟨fun _ => .ok (), fun _ => .ok ()⟩
        ([.malformed, .decoded (.DeletePath "/x")] ++ [.decoded .Ping])
      = daemon_run ⟨fun _ => .ok (), fun _ => .ok ()⟩ [.malformed, .decoded (.DeletePath "/x")]
        ++ [some { success := true, message := "Pong" }] :=
  ⟨claim_C9_daemon_per_connection_isolation.1
      ⟨fun _ => .error "No such file or directory (os error 2)",
       fun _ => .error "No such file or directory (os error 2)"⟩
      "/nonexistent" "No such file or directory (os error 2)"
      "No such file or directory (os error 2)" rfl rfl,
   claim_C9_daemon_per_connection_isolation.2.2
      ⟨fun _ => .ok (), fun _ => .ok ()⟩ [.malformed, .decoded (.DeletePath "/x")]⟩

/-- C4 counterexample: when `trash::delete` fails on the bundle,
`uninstall_app` sends `UninstallApp` to the daemon directly — its action
trace is exactly `[trashDelete, sendUninstallApp]`, containing an
elevated command but no `Ping` at all, contradicting the claim that
every elevated `DeletePath`/`UninstallApp` is preceded by a successful
`Ping` (the Ping/install/re-Ping sequence lives only in
`ensure_helper_installed`, which `uninstall_app` never calls). -/
theorem claim_C4_counterexample :
    (uninstall_app (fun _ => false)
        (fun _ => .ok { success := true, message := "Uninstalled /Applications/Foo.app" })
        [] "/Applications/Foo.app").2
      = [HelperAction.trashDelete "/Applications/Foo.app",
         HelperAction.sendUninstallApp "/Applications/Foo.app"] ∧
    HelperAction.sendPing ∉ (uninstall_app (fun _ => false)
        (fun _ => .ok { success := true, message := "Uninstalled /Applications/Foo.app" })
        [] "/Applications/Foo.app").2 := by
  decide

/-- In the leftover loop of `uninstall_app` no `Ping` is ever added to
the trace. -/
theorem uninstall_foldl_no_ping (trashOk : String → Bool) (ls : List String) :
    ∀ (t : List HelperAction), HelperAction.sendPing ∉ t →
      HelperAction.sendPing ∉ ls.foldl (fun acc l =>
        let acc := acc ++ [HelperAction.trashDelete l]
        if trashOk l then acc
        else acc ++ [HelperAction.sendDeletePath l]) t := by
  induction ls with
  | nil => intro t ht; exact ht
  | cons l ls ih =>
    intro t ht
    simp only [List.foldl_cons]
    apply ih
    by_cases h : trashOk l <;> simp [h, List.mem_append, ht]

/-- The trace of `ensure_helper_installed` is one of three shapes:
Ping only, Ping then install prompt, or Ping, install prompt and
re-Ping. -/
theorem ensure_trace_cases (p1 : Option Response) (he se : Bool)
    (ir : Option Bool) (p2 : Bool) :
    (ensure_helper_installed p1 he se ir p2).2 = [HelperAction.sendPing] ∨
    (ensure_helper_installed p1 he se ir p2).2
      = [HelperAction.sendPing, HelperAction.installPrompt] ∨
    (ensure_helper_installed p1 he se ir p2).2
      = [HelperAction.sendPing, HelperAction.installPrompt, HelperAction.sendPing] := by
  simp only [ensure_helper_installed]
  rcases p1 with _ | res
  · cases he <;> cases se <;> rcases ir with _ | b <;> try cases b
    all_goals simp
  · cases hres : res.success
    · cases he <;> cases se <;> rcases ir with _ | b <;> try cases b
      all_goals simp [hres]
    · simp [hres]

/-- C4 (amended): the Ping-first / install-once / re-Ping / fail-outright
protocol is implemented by `ensure_helper_installed` (used by the
extension remover), which always sends `Ping` first, shows the elevated
install prompt at most once, performs no elevated delete/uninstall
itself, and — when the install prompt succeeded — returns exactly the
outcome of the re-`Ping`; `uninstall_app`, however, does not follow it:
it never sends any `Ping` before its elevated commands. -/
theorem claim_C4_amended_ping_protocol :
    (∀ (p1 : Option Response) (he se : Bool) (ir : Option Bool) (p2 : Bool),
      (ensure_helper_installed p1 he se ir p2).2.head? = some HelperAction.sendPing) ∧
    (∀ (p1 : Option Response) (he se : Bool) (ir : Option Bool) (p2 : Bool),
      (ensure_helper_installed p1 he se ir p2).2.count HelperAction.installPrompt ≤ 1) ∧
    (∀ (p1 : Option Response) (he se : Bool) (ir : Option Bool) (p2 : Bool)
        (a : HelperAction), a ∈ (ensure_helper_installed p1 he se ir p2).2 →
      a = HelperAction.sendPing ∨ a = HelperAction.installPrompt) ∧
    (∀ (he se p2 : Bool),
      (ensure_helper_installed none he se (some true) p2).1 = (he && se && p2)) ∧
    (∀ (trashOk : String → Bool) (helper : Command → Except String Response)
        (leftovers : List String) (path : String),
      HelperAction.sendPing ∉ (uninstall_app trashOk helper leftovers path).2) := by
  refine ⟨?_, ?_, ?_, ?_, ?_⟩
  · intro p1 he se ir p2
    rcases ensure_trace_cases p1 he se ir p2 with h | h | h <;> rw [h] <;> rfl
  · intro p1 he se ir p2
    rcases ensure_trace_cases p1 he se ir p2 with h | h | h <;> rw [h] <;> decide
  · intro p1 he se ir p2 a ha
    rcases ensure_trace_cases p1 he se ir p2 with h | h | h <;> rw [h] at ha <;>
      simp only [List.mem_cons, List.mem_singleton, List.not_mem_nil, or_false] at ha <;>
      tauto
  · intro he se p2
    cases he <;> cases se <;> simp [ensure_helper_installed]
  · intro trashOk helper leftovers path
    unfold uninstall_app
    by_cases hp : trashOk path
    · simp only [hp, if_true]
      exact uninstall_foldl_no_ping trashOk leftovers _ (by simp)
    · simp only [hp, if_false]
      rcases hh : helper (.UninstallApp path) with e | res
      · simp
      · cases hres : res.success
        · simp [hres]
        · simp only [hres, Bool.not_true, if_false]
          exact uninstall_foldl_no_ping trashOk leftovers _ (by simp)

/-- Witness for the amended C4 at concrete oracles: a failed first Ping
with a successful install returns the re-Ping outcome (false here), the
trace starts with Ping, and a concrete `uninstall_app` run sends no
Ping. -/
theorem claim_C4_amended_ping_protocol_witness :
    (ensure_helper_installed none true true (some true) false).1 = false ∧
    (ensure_helper_installed none true true (some true) false).2.head?
      = some HelperAction.sendPing ∧
    HelperAction.sendPing ∉ (uninstall_app (fun _ => true)
      (fun _ => .ok { success := true, message := "ok" }) ["/a"] "/b").2 :=
  ⟨claim_C4_amended_ping_protocol.2.2.2.1 true true false,
   claim_C4_amended_ping_protocol.1 none true true (some true) false,
   claim_C4_amended_ping_protocol.2.2.2.2 (fun _ => true)
     (fun _ => .ok { success := true, message := "ok" }) ["/a"] "/b"⟩

end Alto
